import Mathlib

/-!
Verification of the crime-predictor repository (trainer `train_optimized.py`
and UI `app_optimized.py`) against its natural-language specification.

The Python code is shallowly embedded: dataframes become lists of records,
probabilities become rationals, the fitted scikit-learn pipeline becomes a
record carrying the fitted one-hot categories, the class list and the
per-tree probability functions (the library contract of a fitted
`RandomForestClassifier`: `predict_proba` averages the per-tree class
distributions and `predict` takes the class at the first maximal entry),
and `joblib` persistence becomes an explicit file-system value.
-/

namespace CrimePredictor

/-! ## Generic list helpers mirroring the Python/numpy operations used -/

/-- Python substring membership `needle in hay`, on exploded strings. -/
def listIsSub (needle : List Char) : List Char → Bool
  | [] => needle.isEmpty
  | c :: t => needle.isPrefixOf (c :: t) || listIsSub needle t

/-- Python `needle in hay` for strings. -/
def strContains (hay needle : String) : Bool :=
  listIsSub needle.toList hay.toList

/-- `pandas.Series.unique().tolist()`: distinct values in first-occurrence order. -/
def pyUnique (l : List String) : List String :=
  l.foldl (fun acc a => if a ∈ acc then acc else acc ++ [a]) []

/-- Python `sorted(...)` on strings (ascending lexicographic order). -/
def pySorted (l : List String) : List String :=
  l.insertionSort (· ≤ ·)

/-- `numpy.argmax`: index of the first maximal entry (0 on the empty list). -/
def argmaxIdx : List ℚ → ℕ
  | [] => 0
  | a :: rest => if rest.all (fun b => b ≤ a) then 0 else argmaxIdx rest + 1

/-- `numpy.max` on a vector (the hypotheses keep it away from `[]`). -/
def npMax : List ℚ → ℚ
  | [] => 0
  | [a] => a
  | a :: b :: t => max a (npMax (b :: t))

/-- Componentwise sum of equal-length vectors. -/
def addVec (v w : List ℚ) : List ℚ :=
  List.zipWith (· + ·) v w

/-- Mean of a collection of `n`-dimensional vectors (numpy row-mean). -/
def meanVecs (n : ℕ) (vs : List (List ℚ)) : List ℚ :=
  (vs.foldr addVec (List.replicate n 0)).map (· / (vs.length : ℚ))

/-! ## Data model (`train_optimized.py`) -/

/-- A raw spreadsheet row restricted to the used columns; `none` is a
pandas missing value. -/
structure RawRow where
  NEIGHBORHOOD_CLUSTER : Option String
  HOUR_OF_DAY : Option Int
  DAY_OF_WEEK : Option String
  MONTH_NAME : Option String
  OFFENSE_GROUPED : Option String
deriving DecidableEq

/-- A row that survived `df.dropna(subset=features + [target])`. -/
structure CleanRow where
  NEIGHBORHOOD_CLUSTER : String
  HOUR_OF_DAY : Int
  DAY_OF_WEEK : String
  MONTH_NAME : String
  OFFENSE_GROUPED : String
deriving DecidableEq

/-- The four predictor columns selected by the trainer. -/
def features : List String :=
  ["NEIGHBORHOOD_CLUSTER", "HOUR_OF_DAY", "DAY_OF_WEEK", "MONTH_NAME"]

/-- The target column. -/
def target : String := "OFFENSE_GROUPED"

/-- A raw row is complete on all used columns. -/
def rowComplete (r : RawRow) : Prop :=
  r.NEIGHBORHOOD_CLUSTER.isSome ∧ r.HOUR_OF_DAY.isSome ∧ r.DAY_OF_WEEK.isSome
    ∧ r.MONTH_NAME.isSome ∧ r.OFFENSE_GROUPED.isSome

instance (r : RawRow) : Decidable (rowComplete r) := by
  unfold rowComplete; infer_instance

/-- Clean a single row when it is complete on every used column. -/
def toClean (r : RawRow) : Option CleanRow :=
  match r.NEIGHBORHOOD_CLUSTER, r.HOUR_OF_DAY, r.DAY_OF_WEEK,
      r.MONTH_NAME, r.OFFENSE_GROUPED with
  | some c, some h, some d, some m, some o => some ⟨c, h, d, m, o⟩
  | _, _, _, _, _ => none

/-- `df = df.dropna(subset=features + [target])`. -/
def dropna (df : List RawRow) : List CleanRow :=
  df.filterMap toClean

/-- Fixed weekday option list from the trainer. -/
def dayNames : List String :=
  ["Monday", "Tuesday", "Wednesday", "Thursday", "Friday", "Saturday", "Sunday"]

/-- Fixed month option list from the trainer. -/
def monthNames : List String :=
  ["January", "February", "March", "April", "May", "June",
   "July", "August", "September", "October", "November", "December"]

/-- The option catalog persisted as `app_options.pkl`. -/
structure AppOptions where
  clusters : List String
  days : List String
  months : List String
deriving DecidableEq

/-- The `unique_values` dictionary the trainer builds from the cleaned
dataframe: sorted unique clusters plus the two fixed enumerations. -/
def unique_values (df : List CleanRow) : AppOptions :=
  { clusters := pySorted (pyUnique (df.map (·.NEIGHBORHOOD_CLUSTER))),
    days := dayNames,
    months := monthNames }

/-! ## Train/test split and encoder fitting -/

/-- Number of test rows chosen by `train_test_split(test_size=0.2)` on `n`
rows: `ceil(0.2 * n)`. -/
def testCount (n : ℕ) : ℕ := (n + 4) / 5

/-- `train_test_split(X, y, test_size=0.2, random_state=42)` shuffles the rows
with an opaque pseudo-random permutation; any split of the rows into a train
part and a test part of the prescribed sizes is a possible outcome, so the
split is modelled by this validity predicate over the two parts. -/
def validSplit (df trainPart testPart : List CleanRow) : Prop :=
  (trainPart ++ testPart).Perm df ∧ testPart.length = testCount df.length

instance (df t u : List CleanRow) : Decidable (validSplit df t u) := by
  unfold validSplit; infer_instance

/-- Fitted categories of a `OneHotEncoder` for one column: the sorted unique
values the column takes on the rows seen at fit time. -/
def fitCategories (col : List String) : List String :=
  pySorted (pyUnique col)

/-- One-hot encoding of one categorical value against the fitted categories;
with `handle_unknown="ignore"` an unseen value yields the all-zero vector. -/
def encodeOne (cats : List String) (v : String) : List ℚ :=
  cats.map (fun c => if c = v then 1 else 0)

/-! ## The fitted pipeline and the UI prediction handler (`app_optimized.py`) -/

/-- The single-row feature frame the UI builds from the four widget values. -/
structure Row where
  NEIGHBORHOOD_CLUSTER : String
  HOUR_OF_DAY : Int
  DAY_OF_WEEK : String
  MONTH_NAME : String
deriving DecidableEq

/-- The fitted pipeline artifact: the one-hot categories fitted for the three
categorical columns, the class list `classes_`, and one probability estimator
per tree of the forest (each maps an encoded feature vector to a class
distribution). -/
structure FittedPipeline where
  clusterCats : List String
  dayCats : List String
  monthCats : List String
  classes : List String
  trees : List (List ℚ → List ℚ)

/-- The `ColumnTransformer`: one-hot encode the three categorical columns in
order, pass the hour through unchanged. -/
def transformRow (P : FittedPipeline) (r : Row) : List ℚ :=
  encodeOne P.clusterCats r.NEIGHBORHOOD_CLUSTER
    ++ encodeOne P.dayCats r.DAY_OF_WEEK
    ++ encodeOne P.monthCats r.MONTH_NAME
    ++ [(r.HOUR_OF_DAY : ℚ)]

/-- `model.predict_proba(input)[0]`: the forest averages the per-tree class
distributions on the transformed row. -/
def predict_proba (P : FittedPipeline) (r : Row) : List ℚ :=
  meanVecs P.classes.length (P.trees.map (fun t => t (transformRow P r)))

/-- `model.predict(input)[0]`: the class at the first maximal entry of the
averaged probability vector (`classes_.take(argmax(proba))`). -/
def predict (P : FittedPipeline) (r : Row) : String :=
  P.classes.getD (argmaxIdx (predict_proba P r)) ""

/-- Library contract of a fitted forest at a given input: every tree emits a
class distribution of the right dimension summing to one. -/
def treesOkAt (P : FittedPipeline) (r : Row) : Prop :=
  ∀ t ∈ P.trees,
    (t (transformRow P r)).length = P.classes.length
      ∧ (t (transformRow P r)).sum = 1

instance (P : FittedPipeline) (r : Row) : Decidable (treesOkAt P r) := by
  unfold treesOkAt; infer_instance

/-! ## Safety tips -/

/-- Default safety tip. -/
def genericTip : String := "Stay alert and keep valuables hidden."

/-- Theft safety tip. -/
def theftTip : String :=
  "🔒 <strong>Tip:</strong> Ensure your vehicle is locked and valuables are out of sight. Avoid leaving bags unattended."

/-- Robbery safety tip. -/
def robberyTip : String :=
  "👀 <strong>Tip:</strong> Stay in well-lit areas. Avoid using your phone while walking alone at night."

/-- Assault safety tip. -/
def assaultTip : String :=
  "🏃 <strong>Tip:</strong> Travel in groups if possible. Trust your instincts and avoid conflict."

/-- The tip-selection branch of the handler: keyword checks against the
predicted label in priority order, defaulting to the generic tip. -/
def selectTip (prediction : String) : String :=
  if strContains prediction "THEFT" then theftTip
  else if strContains prediction "ROBBERY" then robberyTip
  else if strContains prediction "ASSAULT" then assaultTip
  else genericTip

/-- Everything the `predict_btn` handler computes from one request. -/
structure PredictionResult where
  prediction : String
  probs : List ℚ
  classes : List String
  max_prob : ℚ
  tip : String
deriving DecidableEq

/-- The `predict_btn` handler on the single-row frame built from the four
widget values: label, probability vector, class list, confidence
(`np.max(probs) * 100`) and safety tip. -/
def runPredict (P : FittedPipeline) (r : Row) : PredictionResult :=
  { prediction := predict P r,
    probs := predict_proba P r,
    classes := P.classes,
    max_prob := npMax (predict_proba P r) * 100,
    tip := selectTip (predict P r) }

/-! ## Artifact persistence and UI startup (`load_resources`) -/

/-- A file on disk: a well-formed pickle of a value, or corrupt bytes. -/
inductive Stored (α : Type) where
  | valid (a : α)
  | corrupt
deriving DecidableEq

/-- Python exceptions relevant to `joblib.load`. -/
inductive PyExc where
  | fileNotFoundError
  | unpicklingError
deriving DecidableEq

/-- `joblib.load` on a file slot: raises `FileNotFoundError` when the file is
absent, some other exception when it is corrupt, else returns the value. -/
def joblibLoad {α : Type} : Option (Stored α) → Except PyExc α
  | none => .error .fileNotFoundError
  | some .corrupt => .error .unpicklingError
  | some (.valid a) => .ok a

/-- The two artifact files the UI reads at startup. -/
structure ArtifactFS where
  modelFile : Option (Stored FittedPipeline)
  optionsFile : Option (Stored AppOptions)

/-- The visible startup error text (`st.error`). -/
def filesNotFoundMsg : String :=
  "⚠️ Files not found! Please run train_optimized.py first."

/-- Outcome of UI startup: resources loaded, the interface halted with a
visible error (`st.error` then `st.stop`), or an uncaught exception. -/
inductive LoadOutcome where
  | ok (model : FittedPipeline) (options : AppOptions)
  | stoppedWithError (msg : String)
  | uncaught (e : PyExc)

/-- `load_resources`: load the model pickle then the options pickle inside a
`try` whose `except FileNotFoundError` shows the error and stops the app; any
other exception escapes the handler. -/
def load_resources (fs : ArtifactFS) : LoadOutcome :=
  match joblibLoad fs.modelFile with
  | .error .fileNotFoundError => .stoppedWithError filesNotFoundMsg
  | .error e => .uncaught e
  | .ok m =>
    match joblibLoad fs.optionsFile with
    | .error .fileNotFoundError => .stoppedWithError filesNotFoundMsg
    | .error e => .uncaught e
    | .ok o => .ok m o

/-- The prediction path is reachable exactly when startup handed the handler a
model and an options catalog. -/
def predictionReachable (fs : ArtifactFS) : Prop :=
  ∃ m o, load_resources fs = .ok m o

/-! ## The trainer as a straight-line script -/

/-- The observable steps of `train_optimized.py`, one per top-level action. -/
inductive TrainStep where
  | loadData
  | dropIncomplete
  | dumpOptions
  | buildPipeline
  | split
  | fitModel
  | evaluate
  | dumpModel
deriving DecidableEq

/-- The order in which `train_optimized.py` performs its steps: load the
spreadsheet, drop incomplete rows, dump `app_options.pkl`, build the
pipeline, split 80/20, fit, evaluate on the test split, dump
`optimized_model.pkl`. -/
def trainerTrace : List TrainStep :=
  [.loadData, .dropIncomplete, .dumpOptions, .buildPipeline,
   .split, .fitModel, .evaluate, .dumpModel]

/-- Position of a step in the trainer trace. -/
def stepPos (s : TrainStep) : ℕ :=
  trainerTrace.findIdx (fun t => decide (t = s))

/-- `RandomForestClassifier(n_estimators=100, ...)`. -/
def n_estimators : ℕ := 100

/-- `random_state=42` of the classifier. -/
def clfRandomState : ℕ := 42

/-- The classifier is built with class_weight set to "balanced". -/
def clfClassWeight : String := "balanced"

/-- `OneHotEncoder(handle_unknown="ignore")`. -/
def encoderHandleUnknown : String := "ignore"

/-- `test_size=0.2` of the split. -/
def splitTestSize : ℚ := 1/5

/-- `random_state=42` of the split. -/
def splitRandomState : ℕ := 42

/-- `joblib.dump(model, "optimized_model.pkl", compress=3)`. -/
def modelDumpCompress : ℕ := 3

/-! ## Lemmas about the numeric helpers -/

theorem argmaxIdx_lt_length : ∀ {l : List ℚ}, l ≠ [] → argmaxIdx l < l.length := by
  intro l hl
  induction l with
  | nil => exact absurd rfl hl
  | cons a rest ih =>
    by_cases h : rest.all (fun b => decide (b ≤ a))
    · simp [argmaxIdx, h]
    · have hr : rest ≠ [] := by
        intro hnil
        subst hnil
        simp at h
      have hlt := ih hr
      have harg : argmaxIdx (a :: rest) = argmaxIdx rest + 1 := by
        simp [argmaxIdx, h]
      rw [harg]
      simp only [List.length_cons]
      omega

theorem getD_le_getD_argmaxIdx :
    ∀ (l : List ℚ) (i : ℕ), i < l.length →
      l.getD i 0 ≤ l.getD (argmaxIdx l) 0 := by
  intro l
  induction l with
  | nil => intro i hi; simp at hi
  | cons a rest ih =>
    intro i hi
    by_cases h : rest.all (fun b => decide (b ≤ a))
    · simp only [argmaxIdx, h, if_true]
      match i with
      | 0 => simp
      | j + 1 =>
        have hj : j < rest.length := by simpa using hi
        have hmem : rest.getD j 0 ∈ rest := by
          rw [List.getD_eq_getElem rest 0 hj]
          exact List.getElem_mem hj
        have := List.all_eq_true.mp h _ hmem
        simpa using of_decide_eq_true this
    · have harg : argmaxIdx (a :: rest) = argmaxIdx rest + 1 := by
        simp [argmaxIdx, h]
      rw [harg]
      have hgoal : (a :: rest).getD (argmaxIdx rest + 1) 0 = rest.getD (argmaxIdx rest) 0 := by
        simp
      rw [hgoal]
      match i with
      | 0 =>
        simp only [List.all_eq_true, not_forall] at h
        obtain ⟨b, hb, hba⟩ := h
        have hba' : a < b := by
          simp only [decide_eq_true_eq] at hba
          exact lt_of_not_le hba
        obtain ⟨j, hj, hbj⟩ := List.mem_iff_getElem.mp hb
        have : rest.getD j 0 ≤ rest.getD (argmaxIdx rest) 0 := ih j hj
        rw [List.getD_eq_getElem rest 0 hj, hbj] at this
        simpa using le_of_lt (lt_of_lt_of_le hba' this)
      | j + 1 =>
        have hj : j < rest.length := by simpa using hi
        simpa using ih j hj

theorem npMax_mem : ∀ {l : List ℚ}, l ≠ [] → npMax l ∈ l := by
  intro l hl
  induction l with
  | nil => exact absurd rfl hl
  | cons a rest ih =>
    match rest with
    | [] => simp [npMax]
    | b :: t =>
      have hmem := ih (by simp)
      rcases max_choice a (npMax (b :: t)) with hc | hc
      · simp [npMax, hc]
      · simp only [npMax, hc]
        exact List.mem_cons_of_mem a hmem

theorem le_npMax : ∀ {l : List ℚ} {p : ℚ}, p ∈ l → p ≤ npMax l := by
  intro l
  induction l with
  | nil => intro p hp; simp at hp
  | cons a rest ih =>
    intro p hp
    match rest with
    | [] =>
      have : p = a := by simpa using hp
      simp [npMax, this]
    | b :: t =>
      rcases List.mem_cons.mp hp with hc | hc
      · simp [npMax, hc]
      · exact le_trans (ih hc) (by simp [npMax])

theorem addVec_length (v w : List ℚ) :
    (addVec v w).length = min v.length w.length := by
  simp [addVec]

theorem sum_addVec : ∀ (v w : List ℚ), v.length = w.length →
    (addVec v w).sum = v.sum + w.sum := by
  intro v
  induction v with
  | nil =>
    intro w hw
    have : w = [] := List.eq_nil_of_length_eq_zero hw.symm
    simp [this, addVec]
  | cons a v ih =>
    intro w hw
    match w with
    | [] => simp at hw
    | b :: w =>
      have hlen : v.length = w.length := by simpa using hw
      simp only [addVec, List.zipWith_cons_cons, List.sum_cons]
      rw [show List.zipWith (· + ·) v w = addVec v w from rfl, ih w hlen]
      ring

theorem foldr_addVec_length {n : ℕ} : ∀ {vs : List (List ℚ)},
    (∀ v ∈ vs, v.length = n) →
    (vs.foldr addVec (List.replicate n 0)).length = n := by
  intro vs
  induction vs with
  | nil => intro _; simp
  | cons v vs ih =>
    intro h
    have hv : v.length = n := h v (List.mem_cons_self v vs)
    have hrest := ih (fun w hw => h w (List.mem_cons_of_mem v hw))
    simp only [List.foldr_cons, addVec_length, hrest, hv]
    omega

theorem foldr_addVec_sum {n : ℕ} : ∀ {vs : List (List ℚ)},
    (∀ v ∈ vs, v.length = n ∧ v.sum = 1) →
    (vs.foldr addVec (List.replicate n 0)).sum = (vs.length : ℚ) := by
  intro vs
  induction vs with
  | nil => intro _; simp
  | cons v vs ih =>
    intro h
    have hv := h v (List.mem_cons_self v vs)
    have hrest : ∀ w ∈ vs, w.length = n ∧ w.sum = 1 :=
      fun w hw => h w (List.mem_cons_of_mem v hw)
    have hlen : (vs.foldr addVec (List.replicate n 0)).length = n :=
      foldr_addVec_length (fun w hw => (hrest w hw).1)
    simp only [List.foldr_cons]
    rw [sum_addVec _ _ (by rw [hv.1, hlen]), hv.2, ih hrest]
    simp only [List.length_cons]
    push_cast
    ring

theorem sum_map_div (l : List ℚ) (c : ℚ) :
    (l.map (· / c)).sum = l.sum / c := by
  induction l with
  | nil => simp
  | cons a l ih => simp [ih, add_div]

theorem meanVecs_length {n : ℕ} {vs : List (List ℚ)}
    (h : ∀ v ∈ vs, v.length = n) :
    (meanVecs n vs).length = n := by
  simp [meanVecs, foldr_addVec_length h]

theorem meanVecs_sum {n : ℕ} {vs : List (List ℚ)} (hne : vs ≠ [])
    (h : ∀ v ∈ vs, v.length = n ∧ v.sum = 1) :
    (meanVecs n vs).sum = 1 := by
  have hlen : (vs.length : ℚ) ≠ 0 := by
    simpa using hne
  simp only [meanVecs, sum_map_div, foldr_addVec_sum h]
  exact div_self hlen

/-! ## Lemmas about the fitted pipeline -/

theorem treesOkAt_each {P : FittedPipeline} {r : Row} (hok : treesOkAt P r) :
    ∀ v ∈ P.trees.map (fun t => t (transformRow P r)),
      v.length = P.classes.length ∧ v.sum = 1 := by
  intro v hv
  obtain ⟨t, ht, rfl⟩ := List.mem_map.mp hv
  exact hok t ht

theorem predict_proba_length {P : FittedPipeline} {r : Row} (hok : treesOkAt P r) :
    (predict_proba P r).length = P.classes.length :=
  meanVecs_length (fun v hv => (treesOkAt_each hok v hv).1)

theorem predict_proba_sum {P : FittedPipeline} {r : Row}
    (htrees : P.trees ≠ []) (hok : treesOkAt P r) :
    (predict_proba P r).sum = 1 :=
  meanVecs_sum (by simpa using htrees) (treesOkAt_each hok)

theorem predict_proba_ne_nil {P : FittedPipeline} {r : Row}
    (hcls : P.classes ≠ []) (hok : treesOkAt P r) :
    predict_proba P r ≠ [] := by
  have hlen := predict_proba_length hok
  intro hnil
  rw [hnil] at hlen
  exact hcls (List.eq_nil_of_length_eq_zero hlen.symm)

theorem argmaxIdx_predict_proba_lt {P : FittedPipeline} {r : Row}
    (hcls : P.classes ≠ []) (hok : treesOkAt P r) :
    argmaxIdx (predict_proba P r) < P.classes.length := by
  have := argmaxIdx_lt_length (predict_proba_ne_nil hcls hok)
  rwa [predict_proba_length hok] at this

theorem predict_mem_classes {P : FittedPipeline} {r : Row}
    (hcls : P.classes ≠ []) (hok : treesOkAt P r) :
    predict P r ∈ P.classes := by
  have hlt := argmaxIdx_predict_proba_lt hcls hok
  unfold predict
  rw [List.getD_eq_getElem _ _ hlt]
  exact List.getElem_mem hlt

/-! ## Lemmas about `pyUnique` and `pySorted` -/

theorem mem_foldl_pyUniqueStep (l : List String) :
    ∀ (acc : List String) (x : String),
      x ∈ l.foldl (fun acc a => if a ∈ acc then acc else acc ++ [a]) acc
        ↔ x ∈ acc ∨ x ∈ l := by
  induction l with
  | nil => intro acc x; simp
  | cons a l ih =>
    intro acc x
    simp only [List.foldl_cons]
    rw [ih]
    by_cases ha : a ∈ acc
    · simp only [ha, if_true, List.mem_cons]
      constructor
      · rintro (hx | hx)
        · exact Or.inl hx
        · exact Or.inr (Or.inr hx)
      · rintro (hx | hx | hx)
        · exact Or.inl hx
        · exact Or.inl (hx ▸ ha)
        · exact Or.inr hx
    · simp only [ha, if_false, List.mem_append, List.mem_singleton, List.mem_cons]
      tauto

theorem nodup_foldl_pyUniqueStep (l : List String) :
    ∀ acc : List String, acc.Nodup →
      (l.foldl (fun acc a => if a ∈ acc then acc else acc ++ [a]) acc).Nodup := by
  induction l with
  | nil => intro acc h; simpa using h
  | cons a l ih =>
    intro acc hacc
    simp only [List.foldl_cons]
    by_cases ha : a ∈ acc
    · simp only [ha, if_true]
      exact ih acc hacc
    · simp only [ha, if_false]
      refine ih _ ?_
      simp [List.nodup_append, hacc, ha]

theorem mem_pyUnique {l : List String} {x : String} :
    x ∈ pyUnique l ↔ x ∈ l := by
  unfold pyUnique
  rw [mem_foldl_pyUniqueStep]
  simp

theorem nodup_pyUnique (l : List String) : (pyUnique l).Nodup :=
  nodup_foldl_pyUniqueStep l [] List.nodup_nil

theorem sorted_pySorted (l : List String) : (pySorted l).Sorted (· ≤ ·) :=
  List.sorted_insertionSort _ l

theorem mem_pySorted {l : List String} {x : String} :
    x ∈ pySorted l ↔ x ∈ l :=
  List.mem_insertionSort _

theorem nodup_pySorted {l : List String} (h : l.Nodup) :
    (pySorted l).Nodup :=
  (List.perm_insertionSort _ l).nodup_iff.mpr h

theorem clusters_sorted (df : List CleanRow) :
    (unique_values df).clusters.Sorted (· ≤ ·) :=
  sorted_pySorted _

theorem clusters_nodup (df : List CleanRow) :
    (unique_values df).clusters.Nodup :=
  nodup_pySorted (nodup_pyUnique _)

theorem mem_clusters (df : List CleanRow) (v : String) :
    v ∈ (unique_values df).clusters ↔ v ∈ df.map (·.NEIGHBORHOOD_CLUSTER) := by
  unfold unique_values
  simp only []
  rw [mem_pySorted, mem_pyUnique]

/-! ## Further helper lemmas and concrete fixtures -/

theorem mem_fitCategories {col : List String} {v : String} :
    v ∈ fitCategories col ↔ v ∈ col := by
  unfold fitCategories
  rw [mem_pySorted, mem_pyUnique]

theorem encodeOne_length (cats : List String) (v : String) :
    (encodeOne cats v).length = cats.length := by
  simp [encodeOne]

theorem encodeOne_unseen {cats : List String} {v : String} (h : v ∉ cats) :
    encodeOne cats v = List.replicate cats.length 0 := by
  induction cats with
  | nil => rfl
  | cons c cats ih =>
    have hc : ¬ c = v := fun hcv => h (hcv ▸ List.mem_cons_self c cats)
    have hrest : v ∉ cats := fun hv => h (List.mem_cons_of_mem c hv)
    simp only [encodeOne, List.map_cons, List.length_cons, List.replicate_succ, hc, if_false]
    exact congrArg _ (ih hrest)

theorem getD_append_singleton (l : List ℚ) (x : ℚ) :
    (l ++ [x]).getD l.length 0 = x := by
  induction l with
  | nil => rfl
  | cons a l ih =>
    simp only [List.cons_append, List.length_cons, List.getD_cons_succ]
    exact ih

theorem transformRow_hour (P : FittedPipeline) (r : Row) :
    (transformRow P r).getD
      (P.clusterCats.length + P.dayCats.length + P.monthCats.length) 0
      = (r.HOUR_OF_DAY : ℚ) := by
  have hE : transformRow P r
      = (encodeOne P.clusterCats r.NEIGHBORHOOD_CLUSTER
          ++ encodeOne P.dayCats r.DAY_OF_WEEK
          ++ encodeOne P.monthCats r.MONTH_NAME) ++ [(r.HOUR_OF_DAY : ℚ)] := by
    simp [transformRow]
  have hlen : (encodeOne P.clusterCats r.NEIGHBORHOOD_CLUSTER
      ++ encodeOne P.dayCats r.DAY_OF_WEEK
      ++ encodeOne P.monthCats r.MONTH_NAME).length
      = P.clusterCats.length + P.dayCats.length + P.monthCats.length := by
    simp [encodeOne]
    omega
  rw [hE, ← hlen]
  exact getD_append_singleton _ _

/-- A small fitted pipeline used to instantiate the theorems on concrete
values: three classes, two trees. -/
def demoPipeline : FittedPipeline :=
  { clusterCats := ["Cluster 1", "Cluster 2"],
    dayCats := dayNames,
    monthCats := monthNames,
    classes := ["ASSAULT W/DANGEROUS WEAPON", "ROBBERY", "THEFT/OTHER"],
    trees := [fun _ => [1/2, 1/4, 1/4], fun _ => [0, 1/4, 3/4]] }

/-- A concrete UI request row. -/
def demoRow : Row :=
  { NEIGHBORHOOD_CLUSTER := "Cluster 1", HOUR_OF_DAY := 22,
    DAY_OF_WEEK := "Friday", MONTH_NAME := "December" }

/-- A complete raw dataset row with the given cluster. -/
def sampleRow (c : String) : RawRow :=
  ⟨some c, some 0, some "Monday", some "January", some "THEFT F/AUTO"⟩

/-- A five-row dataset in which the cluster Cluster 9 occurs exactly once. -/
def sampleDf : List RawRow :=
  [sampleRow "Cluster 1", sampleRow "Cluster 1", sampleRow "Cluster 1",
   sampleRow "Cluster 1", sampleRow "Cluster 9"]

/-- The 80% training part of a valid split of `sampleDf`. -/
def sampleTrain : List CleanRow := (dropna sampleDf).take 4

/-- The 20% test part of the same split of `sampleDf`. -/
def sampleTest : List CleanRow := (dropna sampleDf).drop 4

/-- A file system with a corrupt pipeline pickle and no options pickle. -/
def corruptModelFS : ArtifactFS := ⟨some Stored.corrupt, none⟩

/-- A file system with both artifact files absent. -/
def emptyFS : ArtifactFS := ⟨none, none⟩

/-! ## The claims -/

/-- Claim C1: for every input row (in particular every tuple offered by the
option catalog), a prediction request returns exactly one label — by
construction `predict` yields a single string — that is a member of the
fitted classifier class set, and a probability vector indexed by that same
class set (same length) whose entries sum to 1 (probabilities are embedded
as exact rationals, so the floating-point tolerance is not needed). The
hypotheses are the contract of a fitted forest: a nonempty tree list, a
nonempty class list, and per-tree class distributions of the right
dimension summing to one. -/
theorem C1_single_label_and_distribution (P : FittedPipeline) (r : Row)
    (htrees : P.trees ≠ []) (hcls : P.classes ≠ []) (hok : treesOkAt P r) :
    (runPredict P r).prediction ∈ (runPredict P r).classes
      ∧ (runPredict P r).probs.length = (runPredict P r).classes.length
      ∧ (runPredict P r).probs.sum = 1 :=
  ⟨predict_mem_classes hcls hok, predict_proba_length hok,
    predict_proba_sum htrees hok⟩

/-- Witness for C1 on the concrete demo pipeline and row. -/
theorem C1_witness :
    (runPredict demoPipeline demoRow).prediction ∈ (runPredict demoPipeline demoRow).classes
      ∧ (runPredict demoPipeline demoRow).probs.length
          = (runPredict demoPipeline demoRow).classes.length
      ∧ (runPredict demoPipeline demoRow).probs.sum = 1 :=
  C1_single_label_and_distribution demoPipeline demoRow
    (by simp [demoPipeline]) (by simp [demoPipeline])
    (by simp [treesOkAt, demoPipeline]; norm_num)

/-- Claim C2: the label returned by label-prediction is a class whose entry
in the probability vector returned by probability-prediction is maximal:
there is an index below the class-list length at which the label sits and
whose probability dominates every entry (`numpy.argmax` picks the first
such index, which is what `predict` uses). -/
theorem C2_label_is_argmax (P : FittedPipeline) (r : Row)
    (hcls : P.classes ≠ []) (hok : treesOkAt P r) :
    ∃ i, i < (runPredict P r).classes.length
      ∧ (runPredict P r).prediction = (runPredict P r).classes.getD i ""
      ∧ ∀ j, j < (runPredict P r).probs.length →
          (runPredict P r).probs.getD j 0 ≤ (runPredict P r).probs.getD i 0 :=
  ⟨argmaxIdx (predict_proba P r), argmaxIdx_predict_proba_lt hcls hok, rfl,
    fun j hj => getD_le_getD_argmaxIdx _ j hj⟩

/-- Witness for C2 on the concrete demo pipeline and row. -/
theorem C2_witness :
    ∃ i, i < (runPredict demoPipeline demoRow).classes.length
      ∧ (runPredict demoPipeline demoRow).prediction
          = (runPredict demoPipeline demoRow).classes.getD i ""
      ∧ ∀ j, j < (runPredict demoPipeline demoRow).probs.length →
          (runPredict demoPipeline demoRow).probs.getD j 0
            ≤ (runPredict demoPipeline demoRow).probs.getD i 0 :=
  C2_label_is_argmax demoPipeline demoRow (by simp [demoPipeline])
    (by simp [treesOkAt, demoPipeline]; norm_num)

/-- Claim C3: safety-tip selection is a pure function of the predicted label
string, evaluated in fixed priority order — THEFT, then ROBBERY, then
ASSAULT, else the generic tip — and always produces exactly one of the four
tips. -/
theorem C3_tip_selection_priority (label : String) :
    (strContains label "THEFT" = true → selectTip label = theftTip)
      ∧ (strContains label "THEFT" = false → strContains label "ROBBERY" = true →
          selectTip label = robberyTip)
      ∧ (strContains label "THEFT" = false → strContains label "ROBBERY" = false →
          strContains label "ASSAULT" = true → selectTip label = assaultTip)
      ∧ (strContains label "THEFT" = false → strContains label "ROBBERY" = false →
          strContains label "ASSAULT" = false → selectTip label = genericTip)
      ∧ (selectTip label = theftTip ∨ selectTip label = robberyTip
          ∨ selectTip label = assaultTip ∨ selectTip label = genericTip) := by
  refine ⟨fun h1 => by simp [selectTip, h1],
          fun h1 h2 => by simp [selectTip, h1, h2],
          fun h1 h2 h3 => by simp [selectTip, h1, h2, h3],
          fun h1 h2 h3 => by simp [selectTip, h1, h2, h3], ?_⟩
  unfold selectTip
  by_cases h1 : strContains label "THEFT" = true
  · simp [h1]
  · by_cases h2 : strContains label "ROBBERY" = true
    · simp [h1, h2]
    · by_cases h3 : strContains label "ASSAULT" = true
      · simp [h1, h2, h3]
      · simp [h1, h2, h3]

/-- Witness for C3: the four branches on the literal labels named by the
specification. -/
theorem C3_witness :
    selectTip "THEFT/OTHER" = theftTip
      ∧ selectTip "ROBBERY" = robberyTip
      ∧ selectTip "ASSAULT W/DANGEROUS WEAPON" = assaultTip
      ∧ selectTip "ARSON" = genericTip :=
  ⟨(C3_tip_selection_priority "THEFT/OTHER").1 (by decide),
   (C3_tip_selection_priority "ROBBERY").2.1 (by decide) (by decide),
   (C3_tip_selection_priority "ASSAULT W/DANGEROUS WEAPON").2.2.1
     (by decide) (by decide) (by decide),
   (C3_tip_selection_priority "ARSON").2.2.2.1
     (by decide) (by decide) (by decide)⟩

/-- Claim C4 counterexample: the option catalog is built from the whole
cleaned dataframe, but the encoder is fitted only on the 80% training
split. On the concrete five-row dataset `sampleDf`, the split that puts the
single Cluster 9 row into the test part is a valid 80/20 split, Cluster 9
is offered by the UI cluster selector, yet Cluster 9 is not among the
categories the encoder observed at fit time. -/
theorem C4_counterexample :
    validSplit (dropna sampleDf) sampleTrain sampleTest
      ∧ "Cluster 9" ∈ (unique_values (dropna sampleDf)).clusters
      ∧ "Cluster 9" ∉ fitCategories (sampleTrain.map (·.NEIGHBORHOOD_CLUSTER)) :=
  ⟨by decide, (mem_clusters _ _).mpr (by decide),
    fun h => by
      have := mem_fitCategories.mp h
      revert this
      decide⟩

/-- Claim C4 amended: every cluster value offered by the UI cluster selector
occurs in the cleaned training dataframe, but it need not be a category the
encoder observed at fit time (the encoder is fitted on the training split
only); a cluster outside the fitted categories is tolerated by
handle_unknown ignore and encoded as the all-zero vector instead of being
rejected, so the UI can never cause an encoding failure. -/
theorem C4_amended (df : List CleanRow) (v : String)
    (hv : v ∈ (unique_values df).clusters) :
    v ∈ df.map (·.NEIGHBORHOOD_CLUSTER)
      ∧ ∀ cats : List String, v ∉ cats →
          encodeOne cats v = List.replicate cats.length 0 :=
  ⟨(mem_clusters df v).mp hv, fun _ hvc => encodeOne_unseen hvc⟩

/-- Witness for the amended C4 on the concrete dataset. -/
theorem C4_amended_witness :
    "Cluster 9" ∈ (dropna sampleDf).map (·.NEIGHBORHOOD_CLUSTER)
      ∧ encodeOne ["Cluster 1"] "Cluster 9" = List.replicate 1 0 := by
  have h := C4_amended (dropna sampleDf) "Cluster 9"
    ((mem_clusters _ _).mpr (by decide))
  exact ⟨h.1, by simpa using h.2 ["Cluster 1"] (by decide)⟩

/-- Claim C5: dumping the option catalog and loading it back reproduces the
identical catalog; its day list is the seven weekday names in
Monday-through-Sunday order, its month list is the twelve month names in
January-through-December order, and its cluster list is sorted,
duplicate-free, and holds exactly the cluster values present in the cleaned
training data. -/
theorem C5_options_roundtrip (df : List CleanRow) :
    joblibLoad (some (Stored.valid (unique_values df))) = Except.ok (unique_values df)
      ∧ (unique_values df).days
          = ["Monday", "Tuesday", "Wednesday", "Thursday", "Friday", "Saturday", "Sunday"]
      ∧ (unique_values df).months
          = ["January", "February", "March", "April", "May", "June",
             "July", "August", "September", "October", "November", "December"]
      ∧ (unique_values df).clusters.Sorted (· ≤ ·)
      ∧ (unique_values df).clusters.Nodup
      ∧ ∀ v, v ∈ (unique_values df).clusters ↔ v ∈ df.map (·.NEIGHBORHOOD_CLUSTER) :=
  ⟨rfl, rfl, rfl, clusters_sorted df, clusters_nodup df, mem_clusters df⟩

/-- Claim C6 counterexample: the claim lists persisting the fitted pipeline
together with the option catalog as the final step, after the split and the
fit; in the script the option catalog is dumped before the split, and the
fit never precedes the options dump. -/
theorem C6_counterexample :
    stepPos TrainStep.dumpOptions < stepPos TrainStep.split
      ∧ ¬ stepPos TrainStep.fitModel < stepPos TrainStep.dumpOptions := by
  decide

/-- Claim C6 amended: the trainer drops rows incomplete on the four
predictor columns or the target, persists the option catalog, builds the
pipeline, splits the remaining rows 80/20 with seed 42, one-hot-encodes the
three categorical columns tolerating unseen categories while passing the
numeric hour through unchanged, fits a 100-tree seed-42 class-balanced
ensemble on the training split, evaluates it on the test split, and finally
persists the fitted pipeline with compression level 3 — the option catalog
is persisted before the split and the fit, not together with the model. -/
theorem C6_amended :
    trainerTrace
        = [TrainStep.loadData, TrainStep.dropIncomplete, TrainStep.dumpOptions,
           TrainStep.buildPipeline, TrainStep.split, TrainStep.fitModel,
           TrainStep.evaluate, TrainStep.dumpModel]
      ∧ (∀ r : RawRow, (toClean r).isSome = true ↔ rowComplete r)
      ∧ (∀ df : List RawRow, dropna df = df.filterMap toClean)
      ∧ (∀ df t u : List CleanRow, validSplit df t u →
          t.length + u.length = df.length ∧ u.length = testCount df.length)
      ∧ (∀ n : ℕ, n ≤ 5 * testCount n ∧ 5 * testCount n < n + 5)
      ∧ (∀ (cats : List String) (v : String), v ∉ cats →
          encodeOne cats v = List.replicate cats.length 0)
      ∧ (∀ (P : FittedPipeline) (r : Row),
          (transformRow P r).getD
            (P.clusterCats.length + P.dayCats.length + P.monthCats.length) 0
            = (r.HOUR_OF_DAY : ℚ))
      ∧ n_estimators = 100 ∧ clfRandomState = 42 ∧ clfClassWeight = "balanced"
      ∧ encoderHandleUnknown = "ignore" ∧ splitTestSize = 1/5
      ∧ splitRandomState = 42 ∧ modelDumpCompress = 3 := by
  refine ⟨rfl, ?_, fun _ => rfl, ?_, ?_, fun cats v hv => encodeOne_unseen hv,
    transformRow_hour, rfl, rfl, rfl, rfl, rfl, rfl, rfl⟩
  · intro r
    obtain ⟨c, h, d, m, o⟩ := r
    cases c <;> cases h <;> cases d <;> cases m <;> cases o <;>
      simp [toClean, rowComplete]
  · intro df t u hsplit
    exact ⟨by simpa using hsplit.1.length_eq, hsplit.2⟩
  · intro n
    unfold testCount
    omega

/-- Witness for the amended C6: the step order and the split arithmetic on
the concrete dataset. -/
theorem C6_amended_witness :
    (toClean (sampleRow "Cluster 1")).isSome = true
      ∧ dropna sampleDf = sampleDf.filterMap toClean
      ∧ sampleTrain.length + sampleTest.length = (dropna sampleDf).length := by
  have h := C6_amended
  refine ⟨(h.2.1 (sampleRow "Cluster 1")).mpr (by decide), h.2.2.1 sampleDf, ?_⟩
  exact (h.2.2.2.1 (dropna sampleDf) sampleTrain sampleTest (by decide)).1

/-- Claim C7: the displayed confidence is `np.max(probs) * 100`: it equals
one hundred times some entry of the probability vector that dominates every
entry, so it is never taken from a non-maximal entry; the rendered
percentage is this exact value (display rounds it to one decimal place). -/
theorem C7_confidence_is_max_times_100 (P : FittedPipeline) (r : Row)
    (hcls : P.classes ≠ []) (hok : treesOkAt P r) :
    (runPredict P r).max_prob = npMax (runPredict P r).probs * 100
      ∧ ∃ p ∈ (runPredict P r).probs,
          (runPredict P r).max_prob = p * 100
            ∧ ∀ q ∈ (runPredict P r).probs, q * 100 ≤ (runPredict P r).max_prob := by
  have hne := predict_proba_ne_nil hcls hok
  refine ⟨rfl, npMax (predict_proba P r), npMax_mem hne, rfl, ?_⟩
  intro q hq
  exact mul_le_mul_of_nonneg_right (le_npMax hq) (by norm_num)

/-- Witness for C7 on the concrete demo pipeline and row. -/
theorem C7_witness :
    (runPredict demoPipeline demoRow).max_prob
        = npMax (runPredict demoPipeline demoRow).probs * 100
      ∧ ∃ p ∈ (runPredict demoPipeline demoRow).probs,
          (runPredict demoPipeline demoRow).max_prob = p * 100
            ∧ ∀ q ∈ (runPredict demoPipeline demoRow).probs,
                q * 100 ≤ (runPredict demoPipeline demoRow).max_prob :=
  C7_confidence_is_max_times_100 demoPipeline demoRow (by simp [demoPipeline])
    (by simp [treesOkAt, demoPipeline]; norm_num)

/-- Claim C8 counterexample: with the options artifact file missing but the
pipeline artifact file present and corrupt, startup does not display the
run-the-trainer error: loading the pipeline raises an exception other than
file-not-found, which escapes the handler uncaught. -/
theorem C8_counterexample :
    corruptModelFS.optionsFile = none
      ∧ load_resources corruptModelFS = LoadOutcome.uncaught PyExc.unpicklingError
      ∧ load_resources corruptModelFS ≠ LoadOutcome.stoppedWithError filesNotFoundMsg :=
  ⟨rfl, rfl, by simp [load_resources, joblibLoad, corruptModelFS]⟩

/-- Claim C8 amended: if the pipeline artifact file is missing, or the
pipeline artifact loads successfully and the options artifact file is
missing, the interface displays the visible error directing the operator to
run the trainer and halts; no prediction path is reachable. (When the
pipeline file is present but unreadable while the options file is missing,
the unreadable-file exception propagates instead of the visible message.) -/
theorem C8_amended (fs : ArtifactFS)
    (h : fs.modelFile = none
      ∨ ((∃ m, joblibLoad fs.modelFile = Except.ok m) ∧ fs.optionsFile = none)) :
    load_resources fs = LoadOutcome.stoppedWithError filesNotFoundMsg
      ∧ ¬ predictionReachable fs := by
  have hload : load_resources fs = LoadOutcome.stoppedWithError filesNotFoundMsg := by
    rcases h with h | ⟨⟨m, hm⟩, ho⟩
    · unfold load_resources
      rw [h]
      rfl
    · unfold load_resources
      rw [hm, ho]
      rfl
  refine ⟨hload, ?_⟩
  rintro ⟨m, o, hmo⟩
  rw [hload] at hmo
  exact LoadOutcome.noConfusion hmo

/-- Witness for the amended C8: both files absent. -/
theorem C8_amended_witness :
    load_resources emptyFS = LoadOutcome.stoppedWithError filesNotFoundMsg
      ∧ ¬ predictionReachable emptyFS :=
  C8_amended emptyFS (Or.inl rfl)

/-- Claim C9: the startup error path triggers exactly when a load raises
file-not-found — the model file is absent, or the model file loads and the
options file is absent; a corrupt (present but unreadable) file propagates
its exception uncaught, and the only message the error path ever shows is
the run-the-trainer one. -/
theorem C9_error_iff_file_not_found (fs : ArtifactFS) :
    (load_resources fs = LoadOutcome.stoppedWithError filesNotFoundMsg
        ↔ fs.modelFile = none
          ∨ ((∃ m, joblibLoad fs.modelFile = Except.ok m) ∧ fs.optionsFile = none))
      ∧ (fs.modelFile = some Stored.corrupt →
          load_resources fs = LoadOutcome.uncaught PyExc.unpicklingError)
      ∧ (∀ m : FittedPipeline, fs.modelFile = some (Stored.valid m) →
          fs.optionsFile = some Stored.corrupt →
          load_resources fs = LoadOutcome.uncaught PyExc.unpicklingError)
      ∧ ∀ msg, load_resources fs = LoadOutcome.stoppedWithError msg →
          msg = filesNotFoundMsg := by
  obtain ⟨mf, of⟩ := fs
  match mf, of with
  | none, _ =>
    simp [load_resources, joblibLoad]
  | some Stored.corrupt, _ =>
    simp [load_resources, joblibLoad]
  | some (Stored.valid m), none =>
    simp [load_resources, joblibLoad]
  | some (Stored.valid m), some Stored.corrupt =>
    simp [load_resources, joblibLoad]
  | some (Stored.valid m), some (Stored.valid o) =>
    simp [load_resources, joblibLoad]

/-- Witness for C9: a valid pipeline pickle next to a corrupt options pickle
propagates the unpickling exception. -/
theorem C9_witness :
    load_resources ⟨some (Stored.valid demoPipeline), some Stored.corrupt⟩
      = LoadOutcome.uncaught PyExc.unpicklingError :=
  (C9_error_iff_file_not_found ⟨some (Stored.valid demoPipeline), some Stored.corrupt⟩).2.2.1
    demoPipeline rfl rfl

/-- Claim C10: the trainer dumps the options artifact before fitting the
classifier and before dumping the pipeline artifact: when training fails
after the options dump, the options artifact is already updated while the
pipeline artifact is stale or absent — the pair is not persisted
atomically. -/
theorem C10_options_dump_not_atomic :
    stepPos TrainStep.dumpOptions < stepPos TrainStep.fitModel
      ∧ stepPos TrainStep.fitModel < stepPos TrainStep.dumpModel
      ∧ TrainStep.dumpOptions ∈ trainerTrace.take (stepPos TrainStep.fitModel)
      ∧ TrainStep.dumpModel ∉ trainerTrace.take (stepPos TrainStep.fitModel) := by
  decide

end CrimePredictor
